import Mathlib

/-!
Verification of the manifest post-processor (post-processor/manifest/post-processor.go).

The development shallow-embeds the core of the post-processor:
* the JSON manifest document (`ManifestFile`), its load from disk
  (`readManifestFile` / `parseManifestContents` / `loadManifest`), and the
  run-scoped merge-vs-truncate decision (`mergeManifest`),
* the lock-file coordinator (`lockRun` / `lockFileModel` / `lockCleanup`),
* the HCL2 (structured-text) variant: reading the `manifest` attribute
  (`hclManifestValue`), re-emitting top-level attributes (`hcl2Rewrite`),
  and the nested-key insertion `setMapVal`.

File-system effects are modelled explicitly: the state of the manifest file
is a `FileState`, JSON decoding is an abstract `parse` function supplied as
a parameter, and the Go `panic` of a failed type assertion is `Option.none`.
-/

set_option autoImplicit false

namespace Manifest

/-- One artifact file entry (`ArtifactFile`): name and best-effort size. -/
structure ArtifactFile where
  name : String
  size : Int
deriving DecidableEq, Repr

/-- One build record (`Artifact`) as appended to the JSON manifest. -/
structure Artifact where
  artifactFiles : List ArtifactFile
  artifactId : String
  customData : List (String × String)
  builderType : String
  buildName : String
  buildTime : Int
  packerRunUUID : String
deriving DecidableEq, Repr

/-- The JSON manifest document (`ManifestFile`): a list of builds plus the
run identifier of the last write (`last_run_uuid`). -/
structure ManifestFile where
  builds : List Artifact
  lastRunUUID : String
deriving DecidableEq, Repr

/-- The zero value of `ManifestFile`: no builds and empty last-run id. -/
def emptyManifestFile : ManifestFile := { builds := [], lastRunUUID := "" }

/-- State of the manifest file on disk, as distinguished by
`ioutil.ReadFile` + `os.IsNotExist` in `PostProcess`. -/
inductive FileState where
  | absent
  | unreadable
  | contents (data : String)
deriving DecidableEq, Repr

/-- The fatal error classes of the JSON load path. -/
inductive LoadError where
  | readError
  | parseError
deriving DecidableEq, Repr

/-- Lines 123-126: read the manifest file; a not-exist error is swallowed
(the contents stay empty), any other read failure is fatal. -/
def readManifestFile : FileState → Except LoadError String
  | .absent => .ok ""
  | .unreadable => .error .readError
  | .contents s => .ok s

/-- Lines 150-156: if any contents were read, they must unmarshal to a
`ManifestFile`; otherwise the empty document is used. `parse` abstracts
`json.Unmarshal` (`none` = malformed for the document shape). -/
def parseManifestContents (parse : String → Option ManifestFile) (s : String) :
    Except LoadError ManifestFile :=
  if s.length > 0 then
    match parse s with
    | some doc => .ok doc
    | none => .error .parseError
  else .ok emptyManifestFile

/-- The full JSON-variant load: read then parse. -/
def loadManifest (parse : String → Option ManifestFile) (fs : FileState) :
    Except LoadError ManifestFile :=
  match readManifestFile fs with
  | .error e => .error e
  | .ok s => parseManifestContents parse s

/-- Lines 158-166: if `-force` is set and the supplied run id differs from
the document's last run id, start from the zero document; then append the
new record and set `last_run_uuid` to the supplied run id. -/
def mergeManifest (prior : ManifestFile) (artifact : Artifact) (runId : String)
    (force : Bool) : ManifestFile :=
  let base := if force = true ∧ runId ≠ prior.lastRunUUID then emptyManifestFile else prior
  { builds := base.builds ++ [artifact], lastRunUUID := runId }

/-- Observable trace of `lockFile`'s acquisition loop: the sleep durations
(ms) taken before each attempt, the indices of the attempts whose
`os.OpenFile(..., O_CREATE|O_EXCL, ...)` failed (each is logged), and
whether the sentinel was ever created. -/
structure LockTrace where
  sleepsMs : List Nat
  failures : List Nat
  acquired : Bool
deriving DecidableEq, Repr

/-- Lines 185-193: the retry loop of `lockFile`. `tryCreate i` abstracts
whether the exclusive create succeeds on attempt `i`; `fuel` is the number
of remaining iterations (3 at the start). Each iteration sleeps
`i * 200` ms first, then attempts the create and breaks on success. -/
def lockRun (tryCreate : Nat → Bool) : Nat → Nat → LockTrace
  | _, 0 => { sleepsMs := [], failures := [], acquired := false }
  | i, fuel + 1 =>
    let sleep := i * 200
    if tryCreate i then { sleepsMs := [sleep], failures := [], acquired := true }
    else
      let rest := lockRun tryCreate (i + 1) fuel
      { sleepsMs := sleep :: rest.sleepsMs
        failures := i :: rest.failures
        acquired := rest.acquired }

/-- `lockFile`'s loop with its fixed budget of 3 total attempts. -/
def lockFileModel (tryCreate : Nat → Bool) : LockTrace := lockRun tryCreate 0 3

/-- Line 119: the sentinel path is the output path plus `".lock"`. -/
def lockFilename (outputPath : String) : String := outputPath ++ ".lock"

/-- Line 194: the returned cleanup removes the sentinel file. The file
system is a predicate `exists-at-path`. -/
def lockCleanup (outputPath : String) (fs : String → Bool) : String → Bool :=
  fun p => if p = lockFilename outputPath then false else fs p

/-- What `lockFile` hands back to its caller: the acquisition trace and the
cleanup action (which does not depend on the trace). -/
structure LockResult where
  trace : LockTrace
  cleanup : (String → Bool) → (String → Bool)

/-- `lockFile(lockFilename)` as a whole: run the bounded loop, and always
return the remove-the-sentinel cleanup. -/
def lockFileFull (outputPath : String) (tryCreate : Nat → Bool) : LockResult :=
  { trace := lockFileModel tryCreate, cleanup := lockCleanup outputPath }

/-- The JSON read-merge path of `PostProcess` (lines 119-166): take the
lock trace (its outcome is never consulted), load the prior document, and
merge the new record. The merged document is what lines 169-175 persist. -/
def postProcessJson (parse : String → Option ManifestFile) (fs : FileState)
    (tryCreate : Nat → Bool) (artifact : Artifact) (runId : String) (force : Bool) :
    Except LoadError ManifestFile :=
  let _lock := lockFileModel tryCreate
  match loadManifest parse fs with
  | .error e => .error e
  | .ok prior => .ok (mergeManifest prior artifact runId force)

/-- A decoded structured-text (HCL2) value, as produced by evaluating an
attribute expression and converting it to a Go value.
Modelled from the spec: `hcl2shim.ConfigValueFromHCL2` is code of this
repository outside the given source file; per the spec's design notes the
decoded values range over string/number/bool/list/mapping, so the
conversion is embedded as this tagged-variant type. -/
inductive CtyVal where
  | str (s : String)
  | num (n : Int)
  | boolean (b : Bool)
  | nullv
  | listv (xs : List CtyVal)
  | mapv (m : List (String × CtyVal))

/-- Lines 208-217: compute the prior `manifest` mapping. The argument
describes the `manifest` attribute: `none` = attribute absent,
`some none` = its expression fails to evaluate, `some (some v)` = it
evaluates to `v`. The result `none` models the Go panic of the unchecked
type assertion `.(map[string]interface{})` on line 215 when the decoded
value is not a mapping. -/
def hclManifestValue : Option (Option CtyVal) → Option (List (String × CtyVal))
  | none => some []
  | some none => some []
  | some (some (.mapv m)) => some m
  | some (some _) => none

/-- Overwrite-or-extend one attribute of the output body
(`hclwrite.Body.SetAttributeValue`), body as lookup function. -/
def setBodyAttr {α : Type} (body : String → Option α) (k : String) (v : α) :
    String → Option α :=
  fun q => if q = k then some v else body q

/-- Emit a list of attributes into a body, one `SetAttributeValue` each
(the loop on lines 244-247). -/
def emitFrom {α : Type} (body : String → Option α) (attrs : List (String × α)) :
    String → Option α :=
  attrs.foldl (fun b kv => setBodyAttr b kv.1 kv.2) body

/-- Lines 242-249: the rewrite of the structured-text document. Every
parsed top-level attribute is re-emitted with its parsed value, then the
`manifest` attribute is set to the updated mapping. The result maps each
attribute name to its emitted value. -/
def hcl2Rewrite {α : Type} (attrs : List (String × α)) (newManifest : α) :
    String → Option α :=
  setBodyAttr (emitFrom (fun _ => none) attrs) "manifest" newManifest

/-- A value inside the nested `manifest` mapping: either an opaque
non-mapping Go value (`leaf`, e.g. the entry object being inserted) or a
nested `map[string]interface{}` (`obj`). -/
inductive JVal (α : Type) where
  | leaf (a : α)
  | obj (m : List (String × JVal α))

/-- Lookup in a `map[string]interface{}` (association-list model). -/
def assocLookup {β : Type} : List (String × β) → String → Option β
  | [], _ => none
  | (k, v) :: rest, q => if q = k then some v else assocLookup rest q

/-- Assignment `m[k] = v` in a `map[string]interface{}`: replace the
binding if the key is present, otherwise add it. -/
def assocSet {β : Type} : List (String × β) → String → β → List (String × β)
  | [], k, v => [(k, v)]
  | (k1, v1) :: rest, k, v =>
    if k1 = k then (k1, v) :: rest else (k1, v1) :: assocSet rest k v

/-- Lines 260-273: `setMapVal`. Descend the non-final keys, skipping empty
ones; a missing intermediate key creates a fresh mapping; the final key is
assigned the new entry unconditionally. `none` models the Go panics: the
type assertion on line 270 when an intermediate key holds a non-mapping
value, and the out-of-range slice when `keys` is empty. -/
def setMapVal {α : Type} : List (String × JVal α) → α → List String →
    Option (List (String × JVal α))
  | _, _, [] => none
  | target, toSet, [k] => some (assocSet target k (JVal.leaf toSet))
  | target, toSet, k :: k2 :: rest =>
    if k = "" then setMapVal target toSet (k2 :: rest)
    else
      match assocLookup target k with
      | none =>
        match setMapVal [] toSet (k2 :: rest) with
        | some sub => some (assocSet target k (JVal.obj sub))
        | none => none
      | some (.obj m) =>
        match setMapVal m toSet (k2 :: rest) with
        | some sub => some (assocSet target k (JVal.obj sub))
        | none => none
      | some (.leaf _) => none

/-- Follow a key path down a nested mapping value. -/
def getPath {α : Type} : JVal α → List String → Option (JVal α)
  | v, [] => some v
  | .obj m, k :: rest =>
    match assocLookup m k with
    | some v => getPath v rest
    | none => none
  | .leaf _, _ :: _ => none

/-- A concrete build record used by the witnesses. -/
def sampleArtifact : Artifact :=
  { artifactFiles := [{ name := "a.txt", size := 3 }]
    artifactId := "ami-123"
    customData := []
    builderType := "amazon-ebs"
    buildName := "build1"
    buildTime := 0
    packerRunUUID := "R2" }

/-- Concrete innermost mapping for the `setMapVal` witness: it already
holds an entry under `"name"`, to be overwritten, and a sibling. -/
def sampleLeafMap : List (String × JVal Nat) := [("name", .leaf 7), ("other", .leaf 8)]

/-- Concrete middle mapping for the `setMapVal` witness. -/
def sampleTypeMap : List (String × JVal Nat) := [("type", .obj sampleLeafMap), ("t2", .leaf 9)]

/-- Concrete prior `manifest` mapping for the `setMapVal` witness. -/
def samplePriorMap : List (String × JVal Nat) := [("group", .obj sampleTypeMap), ("g2", .leaf 1)]

/-! ## Helper lemmas -/

theorem assocLookup_assocSet_ne {β : Type} (l : List (String × β)) (k q : String) (v : β)
    (h : q ≠ k) : assocLookup (assocSet l k v) q = assocLookup l q := by
  induction l with
  | nil => simp [assocSet, assocLookup, h]
  | cons kv rest ih =>
    obtain ⟨k1, v1⟩ := kv
    by_cases h1 : k1 = k
    · subst h1
      simp [assocSet, assocLookup, h]
    · simp [assocSet, h1, assocLookup, ih]

theorem assocLookup_assocSet {β : Type} (l : List (String × β)) (k : String) (v : β) :
    assocLookup (assocSet l k v) k = some v := by
  induction l with
  | nil => simp [assocSet, assocLookup]
  | cons kv rest ih =>
    obtain ⟨k1, v1⟩ := kv
    by_cases h : k1 = k
    · simp [assocSet, h, assocLookup]
    · simp [assocSet, h, assocLookup, Ne.symm h, ih]

theorem emitFrom_not_mem {α : Type} (body : String → Option α)
    (attrs : List (String × α)) (q : String) (h : q ∉ attrs.map Prod.fst) :
    emitFrom body attrs q = body q := by
  induction attrs generalizing body with
  | nil => rfl
  | cons kv rest ih =>
    simp only [List.map_cons, List.mem_cons, not_or] at h
    have step : emitFrom body (kv :: rest) q =
        emitFrom (setBodyAttr body kv.1 kv.2) rest q := rfl
    rw [step, ih _ h.2]
    simp [setBodyAttr, h.1]

theorem emitFrom_lookup {α : Type} (attrs : List (String × α)) (q : String) (v : α)
    (hnd : (attrs.map Prod.fst).Nodup) (h : assocLookup attrs q = some v)
    (body : String → Option α) :
    emitFrom body attrs q = some v := by
  induction attrs generalizing body with
  | nil => simp [assocLookup] at h
  | cons kv rest ih =>
    obtain ⟨k1, v1⟩ := kv
    have hnd2 : (k1 :: rest.map Prod.fst).Nodup := by simpa using hnd
    obtain ⟨hk1, hnd'⟩ := List.nodup_cons.mp hnd2
    have step : emitFrom body ((k1, v1) :: rest) q =
        emitFrom (setBodyAttr body k1 v1) rest q := rfl
    by_cases hq : q = k1
    · have hv : v1 = v := by simpa [assocLookup, hq] using h
      subst hq
      rw [step, emitFrom_not_mem _ _ _ (by simpa using hk1)]
      simp [setBodyAttr, hv]
    · have h' : assocLookup rest q = some v := by simpa [assocLookup, hq] using h
      rw [step]
      exact ih hnd' h' _

/-! ## Claim theorems -/

/-- C1. Force-reset law: with `forceFlag = true` and a run id different
from the prior document's `lastRunUUID`, the merge discards all prior
builds, so the result holds exactly the one new record and its
`lastRunUUID` is the new run id. -/
theorem mergeManifest_force_reset (prior : ManifestFile) (a : Artifact) (r2 : String)
    (h : r2 ≠ prior.lastRunUUID) :
    (mergeManifest prior a r2 true).builds = [a] ∧
    (mergeManifest prior a r2 true).lastRunUUID = r2 := by
  simp [mergeManifest, emptyManifestFile, h]

/-- Witness for C1 at a concrete prior document and run ids. -/
theorem mergeManifest_force_reset_witness :
    ("R2" : String) ≠ ({ builds := [], lastRunUUID := "R1" } : ManifestFile).lastRunUUID ∧
    (mergeManifest { builds := [], lastRunUUID := "R1" } sampleArtifact "R2" true).builds
      = [sampleArtifact] :=
  ⟨by decide,
   (mergeManifest_force_reset { builds := [], lastRunUUID := "R1" } sampleArtifact "R2"
      (by decide)).1⟩

/-- C2. No-truncation law: when the force flag is off or the supplied run
id equals the prior `lastRunUUID`, the merge appends the new record after
the unchanged prior builds. -/
theorem mergeManifest_no_truncation (prior : ManifestFile) (a : Artifact) (runId : String)
    (force : Bool) (h : force = false ∨ runId = prior.lastRunUUID) :
    (mergeManifest prior a runId force).builds = prior.builds ++ [a] ∧
    (mergeManifest prior a runId force).lastRunUUID = runId := by
  have hcond : ¬(force = true ∧ runId ≠ prior.lastRunUUID) := by
    rcases h with h | h
    · rintro ⟨hf, -⟩
      rw [h] at hf
      exact Bool.false_ne_true hf
    · rintro ⟨-, hr⟩
      exact hr h
  simp [mergeManifest, hcond]

/-- Witness for C2 at a concrete prior document. -/
theorem mergeManifest_no_truncation_witness :
    ((false : Bool) = false ∨
      ("R9" : String) = ({ builds := [sampleArtifact], lastRunUUID := "R1" } : ManifestFile).lastRunUUID) ∧
    (mergeManifest { builds := [sampleArtifact], lastRunUUID := "R1" } sampleArtifact "R9" false).builds
      = [sampleArtifact] ++ [sampleArtifact] :=
  ⟨Or.inl rfl,
   (mergeManifest_no_truncation { builds := [sampleArtifact], lastRunUUID := "R1" }
      sampleArtifact "R9" false (Or.inl rfl)).1⟩

/-- C3. Whenever the read-merge pipeline reaches a successful write, the
persisted document's `lastRunUUID` equals the supplied run id, for every
force-flag value and whether or not a truncation occurred. -/
theorem postProcess_lastRunUUID (parse : String → Option ManifestFile) (fs : FileState)
    (tc : Nat → Bool) (a : Artifact) (runId : String) (force : Bool) (doc : ManifestFile)
    (h : postProcessJson parse fs tc a runId force = .ok doc) :
    doc.lastRunUUID = runId := by
  unfold postProcessJson at h
  cases hl : loadManifest parse fs with
  | error e => rw [hl] at h; exact absurd h (by simp)
  | ok prior =>
    rw [hl] at h
    have hd : mergeManifest prior a runId force = doc := by
      simpa using h
    rw [← hd]
    rfl

/-- Witness for C3 on a concrete successful invocation. -/
theorem postProcess_lastRunUUID_witness :
    ({ builds := [sampleArtifact], lastRunUUID := "R" } : ManifestFile).lastRunUUID = "R" :=
  postProcess_lastRunUUID (fun _ => none) .absent (fun _ => true) sampleArtifact "R" false
    { builds := [sampleArtifact], lastRunUUID := "R" } rfl

/-- C4. JSON load error taxonomy: an absent file loads as the empty
document; an unreadable file is a read error; readable non-empty contents
that do not unmarshal to the document shape are a parse error. -/
theorem loadManifest_error_taxonomy (parse : String → Option ManifestFile) (s : String)
    (hs : s.length > 0) (hp : parse s = none) :
    loadManifest parse .absent = .ok emptyManifestFile ∧
    loadManifest parse .unreadable = .error .readError ∧
    loadManifest parse (.contents s) = .error .parseError := by
  refine ⟨rfl, rfl, ?_⟩
  simp [loadManifest, readManifestFile, parseManifestContents, hs, hp]

/-- Witness for C4 with a parser that rejects everything. -/
theorem loadManifest_error_taxonomy_witness :
    ("x" : String).length > 0 ∧
    loadManifest (fun _ => (none : Option ManifestFile)) (.contents "x") = .error .parseError :=
  ⟨by decide,
   (loadManifest_error_taxonomy (fun _ => none) "x" (by decide) rfl).2.2⟩

/-- C10. A readable zero-byte manifest file loads exactly like an absent
one — the empty document, no parse error — and the pipeline then appends
the single new record. -/
theorem loadManifest_empty_contents (parse : String → Option ManifestFile)
    (tc : Nat → Bool) (a : Artifact) (runId : String) (force : Bool) :
    loadManifest parse (.contents "") = loadManifest parse .absent ∧
    loadManifest parse (.contents "") = .ok emptyManifestFile ∧
    (postProcessJson parse (.contents "") tc a runId force).map ManifestFile.builds
      = .ok [a] := by
  refine ⟨rfl, rfl, ?_⟩
  have hb : (mergeManifest emptyManifestFile a runId force).builds = [a] := by
    simp [mergeManifest, emptyManifestFile]
  simp only [postProcessJson, loadManifest, readManifestFile, parseManifestContents]
  show Except.map ManifestFile.builds (Except.ok (mergeManifest emptyManifestFile a runId force))
    = Except.ok [a]
  rw [Except.map, hb]

/-- C5 (counterexample). The empty-segment skipping does not apply to the
final segment: with segments `("g", "t", "")` the entry is stored under the
literal key `""` at `mapping["g"]["t"][""]`, not one level shallower at
`mapping["g"]["t"]` as the claim's "skipping any segment" predicts. -/
theorem setMapVal_empty_last_counterexample :
    setMapVal ([] : List (String × JVal Nat)) 0 ["g", "t", ""] =
      some [("g", .obj [("t", .obj [("", .leaf 0)])])] ∧
    getPath (JVal.obj [("g", JVal.obj [("t", JVal.obj [("", JVal.leaf (0 : Nat))])])])
      ["g", "t"] = some (.obj [("", .leaf 0)]) ∧
    JVal.obj [("", JVal.leaf (0 : Nat))] ≠ JVal.leaf 0 :=
  ⟨rfl, rfl, fun h => JVal.noConfusion h⟩

/-- C5 (amended). `setMapVal` descends existing nested mappings and
creates missing ones, keyed by the segments in order, skipping empty
non-final segments (so the entry lands one level shallower per unset
non-final segment), and assigns the final key unconditionally, overwriting
any previous value there while preserving every sibling at every level; an
empty final segment is used literally as the key. Stated for an arbitrary
prior mapping whose `g`-submapping is `mg` and whose `t`-submapping inside
it is `mt`. -/
theorem setMapVal_nested_key (g t n : String) (e : Nat)
    (prior mg mt : List (String × JVal Nat)) (hg : g ≠ "") (ht : t ≠ "")
    (hgl : assocLookup prior g = some (.obj mg))
    (htl : assocLookup mg t = some (.obj mt)) :
    setMapVal prior e [g, t, n] =
      some (assocSet prior g (.obj (assocSet mg t (.obj (assocSet mt n (.leaf e)))))) ∧
    getPath (.obj (assocSet prior g (.obj (assocSet mg t (.obj (assocSet mt n (.leaf e)))))))
      [g, t, n] = some (.leaf e) ∧
    (∀ q, q ≠ g →
      assocLookup (assocSet prior g (.obj (assocSet mg t (.obj (assocSet mt n (.leaf e)))))) q
        = assocLookup prior q) ∧
    (∀ q, q ≠ t →
      assocLookup (assocSet mg t (.obj (assocSet mt n (.leaf e)))) q = assocLookup mg q) ∧
    (∀ q, q ≠ n → assocLookup (assocSet mt n (.leaf e)) q = assocLookup mt q) ∧
    (∀ tgt : List (String × JVal Nat), assocLookup tgt g = none →
      setMapVal tgt e [g, t, n] = some (assocSet tgt g (.obj [(t, .obj [(n, .leaf e)])]))) ∧
    (∀ tgt : List (String × JVal Nat), assocLookup tgt g = some (.obj mg) →
      setMapVal tgt e [g, "", n] = some (assocSet tgt g (.obj (assocSet mg n (.leaf e))))) ∧
    (∀ tgt : List (String × JVal Nat), assocLookup tgt g = none →
      setMapVal tgt e [g, "", n] = some (assocSet tgt g (.obj [(n, .leaf e)]))) ∧
    (∀ tgt : List (String × JVal Nat),
      setMapVal tgt e [n] = some (assocSet tgt n (.leaf e))) := by
  refine ⟨?_, ?_, ?_, ?_, ?_, ?_, ?_, ?_, fun tgt => rfl⟩
  · simp [setMapVal, hg, ht, hgl, htl]
  · simp [getPath, assocLookup_assocSet]
  · exact fun q hq => assocLookup_assocSet_ne prior g q _ hq
  · exact fun q hq => assocLookup_assocSet_ne mg t q _ hq
  · exact fun q hq => assocLookup_assocSet_ne mt n q _ hq
  · intro tgt h2
    simp [setMapVal, hg, ht, h2, assocLookup, assocSet]
  · intro tgt h2
    simp [setMapVal, hg, h2]
  · intro tgt h2
    simp [setMapVal, hg, h2, assocLookup, assocSet]

/-- Witness for C5's amended nested-key law: a populated prior mapping
whose full `("group","type","name")` path already holds an entry, which
the merge overwrites in place. -/
theorem setMapVal_nested_key_witness :
    (("group" : String) ≠ "" ∧ ("type" : String) ≠ "" ∧
     assocLookup samplePriorMap "group" = some (.obj sampleTypeMap) ∧
     assocLookup sampleTypeMap "type" = some (.obj sampleLeafMap)) ∧
    setMapVal samplePriorMap 0 ["group", "type", "name"] =
      some (assocSet samplePriorMap "group"
        (.obj (assocSet sampleTypeMap "type"
          (.obj (assocSet sampleLeafMap "name" (.leaf 0)))))) :=
  ⟨⟨by decide, by decide, rfl, rfl⟩,
   (setMapVal_nested_key "group" "type" "name" 0 samplePriorMap sampleTypeMap sampleLeafMap
      (by decide) (by decide) rfl rfl).1⟩

/-- C6. Frame property of the structured-text rewrite: every top-level
attribute other than `manifest` is re-emitted with exactly the value
parsed from the prior document. -/
theorem hcl2Rewrite_frame (attrs : List (String × CtyVal)) (newManifest : CtyVal)
    (k : String) (v : CtyVal) (hnd : (attrs.map Prod.fst).Nodup)
    (hk : k ≠ "manifest") (hv : assocLookup attrs k = some v) :
    hcl2Rewrite attrs newManifest k = some v := by
  show (if k = "manifest" then some newManifest else emitFrom (fun _ => none) attrs k)
    = some v
  rw [if_neg hk]
  exact emitFrom_lookup attrs k v hnd hv _

/-- Witness for C6 on a two-attribute document. -/
theorem hcl2Rewrite_frame_witness :
    (([("foo", CtyVal.str "bar"), ("manifest", CtyVal.mapv [])].map Prod.fst).Nodup ∧
     ("foo" : String) ≠ "manifest" ∧
     assocLookup [("foo", CtyVal.str "bar"), ("manifest", CtyVal.mapv [])] "foo"
       = some (.str "bar")) ∧
    hcl2Rewrite [("foo", CtyVal.str "bar"), ("manifest", CtyVal.mapv [])]
      (CtyVal.mapv []) "foo" = some (.str "bar") :=
  ⟨⟨by decide, by decide, rfl⟩,
   hcl2Rewrite_frame [("foo", CtyVal.str "bar"), ("manifest", CtyVal.mapv [])]
     (CtyVal.mapv []) "foo" (CtyVal.str "bar") (by decide) (by decide) rfl⟩

/-- C7 (counterexample). A `manifest` attribute that evaluates successfully
to a non-mapping value (here the string `"x"`) does not yield the empty
mapping: the unchecked type assertion on line 215 panics (`none`). -/
theorem hclManifestValue_counterexample :
    hclManifestValue (some (some (.str "x"))) = none ∧
    (none : Option (List (String × CtyVal))) ≠ some [] :=
  ⟨rfl, fun h => Option.noConfusion h⟩

/-- C7 (amended). If the `manifest` attribute is absent, or its expression
fails to evaluate, an empty mapping is used and the merge proceeds; if it
evaluates to a mapping, that mapping is used; only a successful evaluation
to a non-mapping value crashes the load. -/
theorem hclManifestValue_amended (m : List (String × CtyVal)) :
    hclManifestValue none = some [] ∧
    hclManifestValue (some none) = some [] ∧
    hclManifestValue (some (some (.mapv m))) = some m :=
  ⟨rfl, rfl, rfl⟩

/-- C8. Lock acquisition is bounded and non-fatal: when the sentinel
always pre-exists, the loop makes exactly 3 attempts, sleeping 0, 200 and
400 ms before them, logs all 3 failures, never acquires — and the
read-merge pipeline's outcome is identical to a run whose lock acquisition
succeeds, so no error arises from lock exhaustion. -/
theorem lockFile_bounded_nonfatal :
    lockFileModel (fun _ => false) =
      { sleepsMs := [0, 200, 400], failures := [0, 1, 2], acquired := false } ∧
    ∀ (parse : String → Option ManifestFile) (fs : FileState) (a : Artifact)
      (runId : String) (force : Bool),
      postProcessJson parse fs (fun _ => false) a runId force =
        postProcessJson parse fs (fun _ => true) a runId force :=
  ⟨rfl, fun _ _ _ _ _ => rfl⟩

/-- C9. Release-always: whatever the acquisition oracle did, the returned
cleanup removes the sentinel at `outputPath ++ ".lock"` and leaves every
other path untouched; after release the sentinel does not exist. -/
theorem lockFile_release_always (outputPath : String) (tryCreate : Nat → Bool)
    (fs : String → Bool) (p : String) :
    (lockFileFull outputPath tryCreate).cleanup fs (lockFilename outputPath) = false ∧
    (lockFileFull outputPath tryCreate).cleanup fs p =
      if p = lockFilename outputPath then false else fs p :=
  ⟨by simp [lockFileFull, lockCleanup], rfl⟩

end Manifest
